import Mathlib

/-!
Verification of the concurrent acquisition-and-extraction engine of the
stock-market-sentiment ETL repository (`data_extraction/webscraper.py`,
class `AsyncWebScraper`).

Shallow embedding conventions:
* Parsed HTML documents (BeautifulSoup trees) are modelled by `Html`, a tree
  of named elements and text nodes.  The parser itself (`BeautifulSoup(html,
  'lxml')`) is an external library; definitions that parse take an explicit
  `parse : String → Html` argument, and `lxmlParsePlain` models lxml's
  behaviour on a bare-text document.
* Network and rendering I/O are modelled by outcome oracles:
  `FetchOutcome` for one `session.get` (indexed by request position in the
  batch, since each request is a distinct network interaction), and
  `RenderOutcome` for one headless-Chrome rendering session.
* Python `dict`s are association lists with Python semantics: insertion
  updates the value of an existing key in place, otherwise appends; lookup
  returns the first match.
* `asyncio.gather` preserves task order in its result list and awaits all
  tasks; since every exception inside `_fetch_links` is caught and
  `_fetch_html` catches all its recognized errors, the concurrent batch is
  modelled by a sequential fold / map over the task list (writes to
  `collected_links` are serialized by the `asyncio.Lock`, so each write is
  atomic).
* Python `str.strip` removes Unicode whitespace (`pyIsSpace`), and
  `str.replace(u'\xa0', u' ')` is a character map (`replaceNbsp`).
-/

/-- A parsed HTML document node: a named element with children, or a text
node.  Raw markup-declaration strings (the bs4 classes `TemplateString`,
`ProcessingInstruction`, `Declaration`, `Doctype` named in the removal list
of `_extract_text`) are represented as nodes carrying their class name, so
the name list passed to `soup([...])` selects them. -/
inductive Html where
  | elem (tag : String) (children : List Html)
  | txt (s : String)

mutual

/-- Model of `Tag.get_text()`: concatenation of every text descendant in document
order. -/
def getText : Html → String
  | .txt s => s
  | .elem _ cs => getTextList cs

def getTextList : List Html → String
  | [] => ""
  | c :: cs => getText c ++ getTextList cs

end

mutual

/-- Model of `soup.find_all(tag)` restricted to a list of sibling subtrees: all
matching elements in document (preorder) order. -/
def findAllList (tag : String) : List Html → List Html
  | [] => []
  | c :: cs => findAllNode tag c ++ findAllList tag cs

def findAllNode (tag : String) : Html → List Html
  | .txt _ => []
  | .elem t cs => (if t = tag then [Html.elem t cs] else []) ++ findAllList tag cs

end

/-- Model of `soup.find_all(tag)`: the soup object itself is the document root, and
the search covers its descendants. -/
def findAll (tag : String) : Html → List Html
  | .txt _ => []
  | .elem _ cs => findAllList tag cs

mutual

/-- Model of `element.extract()` applied to every node of the subtree list whose name
is in `names`: the matched nodes are removed together with their contents. -/
def removeTagsList (names : List String) : List Html → List Html
  | [] => []
  | c :: cs => removeTagsNode names c ++ removeTagsList names cs

def removeTagsNode (names : List String) : Html → List Html
  | .txt s => [Html.txt s]
  | .elem t cs =>
      if t ∈ names then [] else [Html.elem t (removeTagsList names cs)]

end

/-- Removal over the whole document: the root (the soup object) is never a
match of `soup([...])`, so only descendants are filtered. -/
def removeTags (names : List String) : Html → Html
  | .txt s => .txt s
  | .elem t cs => .elem t (removeTagsList names cs)

/-- Python `str.isspace` on one character (the characters `str.strip`
removes): ASCII whitespace, the C1 separator controls, NEL, NBSP, and the
Unicode space range. -/
def pyIsSpace (c : Char) : Bool :=
  (9 ≤ c.toNat && c.toNat ≤ 13) || c = ' ' ||
  (28 ≤ c.toNat && c.toNat ≤ 31) || c.toNat = 133 || c.toNat = 160 ||
  c.toNat = 5760 || (8192 ≤ c.toNat && c.toNat ≤ 8202) ||
  c.toNat = 8232 || c.toNat = 8233 || c.toNat = 8239 || c.toNat = 8287 ||
  c.toNat = 12288

/-- Python `str.strip()` on the character list. -/
def pyStripList (l : List Char) : List Char :=
  ((l.dropWhile pyIsSpace).reverse.dropWhile pyIsSpace).reverse

/-- Python `str.strip()`. -/
def pyStrip (s : String) : String :=
  ⟨pyStripList s.data⟩

/-- Python `str.replace(u'\xa0', u' ')`: a single-character replacement is a
character map. -/
def replaceNbsp (s : String) : String :=
  ⟨s.data.map (fun c => if c = Char.ofNat 160 then ' ' else c)⟩

/-- The name list `_extract_text` passes to `soup([...])` for removal. -/
def removeNames : List String :=
  ["script", "style", "template", "TemplateString", "ProcessingInstruction",
   "Declaration", "Doctype"]

/-- Core of `AsyncWebScraper._extract_text` after parsing: the title is read
from the unmodified soup (`soup.title.get_text()` or the sentinel), then the
non-content nodes are extracted, then the paragraph texts are stripped,
NBSP-normalized and space-joined. -/
def extractFromSoup (soup : Html) : String × String :=
  let title := match (findAll "title" soup).head? with
    | some t => getText t
    | none => "No Title Found"
  let text := String.intercalate " "
    ((findAll "p" (removeTags removeNames soup)).map
      (fun p => replaceNbsp (pyStrip (getText p))))
  (text, title)

/-- Embedding of `AsyncWebScraper._extract_text`: parse with the external parser, then
extract. -/
def _extract_text (parse : String → Html) (html : String) : String × String :=
  extractFromSoup (parse html)

/-- Modelled lxml behaviour: parsing a document that is bare text wraps the
text in `<html><body><p>…</p></body></html>`. -/
def lxmlParsePlain (s : String) : Html :=
  .elem "[document]" [.elem "html" [.elem "body" [.elem "p" [.txt s]]]]

/-- A Python `dict` as an association list.  `dictInsert` is `d[k] = v`:
update in place when the key exists, append otherwise. -/
def dictInsert {α : Type} (m : List (String × α)) (k : String) (v : α) :
    List (String × α) :=
  match m with
  | [] => [(k, v)]
  | (k', v') :: rest =>
      if k' = k then (k, v) :: rest else (k', v') :: dictInsert rest k v

/-- Lookup `d[k]` / `d.get(k)`: first matching entry. -/
def dictLookup {α : Type} (m : List (String × α)) (k : String) : Option α :=
  match m with
  | [] => none
  | (k', v) :: rest => if k' = k then some v else dictLookup rest k

/-- Keys `d.keys()` in insertion order. -/
def dictKeys {α : Type} (m : List (String × α)) : List String :=
  m.map Prod.fst

/-- Outcome of one `session.get(url)` request (with its `response.text()`
decode), as `_fetch_html` observes it: the body on success, or one of the
five exception types its `except` clause recognizes. -/
inductive FetchOutcome where
  | success (body : String)
  | timeoutError (msg : String)
  | invalidURL (msg : String)
  | serverDisconnected (msg : String)
  | clientConnectorError (msg : String)
  | unicodeDecodeError (msg : String)

/-- The exception message `str(e)` (meaningful on the error constructors);
on `success` it is the body itself, unused. -/
def FetchOutcome.msg : FetchOutcome → String
  | .success b => b
  | .timeoutError m => m
  | .invalidURL m => m
  | .serverDisconnected m => m
  | .clientConnectorError m => m
  | .unicodeDecodeError m => m

/-- Whether the outcome is one of the recognized failure conditions. -/
def FetchOutcome.isFailure : FetchOutcome → Bool
  | .success _ => false
  | _ => true

/-- Embedding of `AsyncWebScraper._fetch_html`: return `(body, url)` on success, and
`("Error: " ++ str(e), url)` on any of the recognized failures instead of
raising. -/
def _fetch_html (oracle : String → FetchOutcome) (url : String) :
    String × String :=
  match oracle url with
  | .success body => (body, url)
  | .timeoutError m => ("Error: " ++ m, url)
  | .invalidURL m => ("Error: " ++ m, url)
  | .serverDisconnected m => ("Error: " ++ m, url)
  | .clientConnectorError m => ("Error: " ++ m, url)
  | .unicodeDecodeError m => ("Error: " ++ m, url)

/-- The fetch tasks in request order, starting at request index `i`.  The
network oracle `env` is indexed by the position of the request in the batch,
since each task performs its own network interaction. -/
def fetchFrom (env : Nat → String → FetchOutcome) (i : Nat) :
    List String → List (String × String)
  | [] => []
  | u :: rest => _fetch_html (env i) u :: fetchFrom env (i + 1) rest

/-- Embedding of `AsyncWebScraper._fetch_all_html`: `asyncio.gather` over one
`_fetch_html` task per URL; results come back in task order. -/
def _fetch_all_html (env : Nat → String → FetchOutcome)
    (urls : List String) : List (String × String) :=
  fetchFrom env 0 urls

/-- Embedding of `AsyncWebScraper.scrape_html`: fetch all URLs, then build
`{url: _extract_text(html) for html, url in html_data}` — a dict
comprehension evaluated in list order, later keys overwriting earlier. -/
def scrape_html (parse : String → Html) (env : Nat → String → FetchOutcome)
    (urls : List String) : List (String × (String × String)) :=
  (_fetch_all_html env urls).foldl
    (fun m p => dictInsert m p.2 (_extract_text parse p.1)) []

/-- Outcome of one rendering session for `_fetch_links`: the discovered
`href` list, or an exception after the browser was created (navigation,
parse), or an exception from `webdriver.Chrome(...)` itself, in which case
`browser` stays `None`. -/
inductive RenderOutcome where
  | ok (links : List String)
  | navError (msg : String)
  | noSession (msg : String)

/-- Resource/log events of one `_fetch_links` call, in program order. -/
inductive Event where
  | acquired
  | released
  | loggedError
deriving DecidableEq

/-- Embedding of `AsyncWebScraper._fetch_links` with its event trace: on success the
links are written to `collected_links[url]` under the lock; any exception is
caught and only printed; `finally` quits the browser whenever one was
created. -/
def fetchLinksTr (env : String → RenderOutcome) (url : String)
    (m : List (String × List String)) :
    List (String × List String) × List Event :=
  match env url with
  | .ok links => (dictInsert m url links, [.acquired, .released])
  | .navError _ => (m, [.acquired, .loggedError, .released])
  | .noSession _ => (m, [.loggedError])

/-- The state effect of `_fetch_links` alone. -/
def _fetch_links (env : String → RenderOutcome) (url : String)
    (m : List (String × List String)) : List (String × List String) :=
  (fetchLinksTr env url m).1

/-- Embedding of `_gather_links` / `fetch_all_links` on the mapping: one `_fetch_links`
task per target URL; every exception is caught inside the task, so `gather`
completes them all, and each write is atomic under the lock — modelled as a
fold over the full target list. -/
def runDiscovery (env : String → RenderOutcome) (targets : List String)
    (m : List (String × List String)) : List (String × List String) :=
  targets.foldl (fun acc u => _fetch_links env u acc) m

/-- The engine state: `target_urls` and `collected_links` as set up by
`AsyncWebScraper.__init__` (the `asyncio.Lock` has no pure content; it
serializes the mapping writes, which the fold already renders atomic). -/
structure Scraper where
  target_urls : List String
  collected_links : List (String × List String)

/-- Embedding of `AsyncWebScraper.__init__`. -/
def initScraper (urls : List String) : Scraper :=
  ⟨urls, []⟩

/-- Embedding of `AsyncWebScraper.fetch_all_links`: run discovery over `target_urls`. -/
def fetch_all_links (env : String → RenderOutcome) (s : Scraper) : Scraper :=
  { s with collected_links := runDiscovery env s.target_urls s.collected_links }

/-- Embedding of `AsyncWebScraper.scrape_and_get_html`: runs `scrape_html`, which touches
no engine field; the state component records that. -/
def scrape_and_get_html (s : Scraper) (parse : String → Html)
    (env : Nat → String → FetchOutcome) (urls : List String) :
    List (String × (String × String)) × Scraper :=
  (scrape_html parse env urls, s)

/-- One public engine operation together with its I/O oracle. -/
inductive Op where
  | discover (env : String → RenderOutcome)
  | scrape (parse : String → Html) (env : Nat → String → FetchOutcome)
      (urls : List String)

/-- Effect of one operation on the engine state. -/
def applyOp (s : Scraper) : Op → Scraper
  | .discover env => fetch_all_links env s
  | .scrape parse env urls => (scrape_and_get_html s parse env urls).2

/-- Effect of a sequence of operations. -/
def applyOps (s : Scraper) (ops : List Op) : Scraper :=
  ops.foldl applyOp s

/-- The result-dict accumulation step of `scrape_html`. -/
def resultStep (parse : String → Html)
    (m : List (String × (String × String))) (p : String × String) :
    List (String × (String × String)) :=
  dictInsert m p.2 (_extract_text parse p.1)

/-- The last fetch-result pair whose source URL is `u`, scanning `ps` in
result order. -/
def lastFor (u : String) : List (String × String) → Option (String × String)
  | [] => none
  | p :: rest =>
      match lastFor u rest with
      | some q => some q
      | none => if p.2 = u then some p else none

/-- The lxml parse of `"<script>x</script><p>Hello</p>"`: the script is
hoisted into the head, the paragraph into the body. -/
def scriptHelloDoc : Html :=
  .elem "[document]" [.elem "html"
    [.elem "head" [.elem "script" [.txt "x"]],
     .elem "body" [.elem "p" [.txt "Hello"]]]]

/-- The lxml parse of `"<title>Example</title>"` inside its document
skeleton. -/
def titleExampleDoc : Html :=
  .elem "[document]" [.elem "html"
    [.elem "head" [.elem "title" [.txt "Example"]],
     .elem "body" []]]

/-- A concrete rendering oracle for witnesses: one URL renders, the other
fails during navigation. -/
def demoRenderEnv : String → RenderOutcome := fun v =>
  if v = "https://a.test/news" then .ok ["/x"] else .navError "timeout"

/-- A concrete network oracle for witnesses: the response body identifies
whether the request was the third of the batch. -/
def demoFetchEnv : Nat → String → FetchOutcome := fun i _ =>
  .success (if i = 2 then "last" else "first")

/-! ### Association-list lemmas -/

theorem dictLookup_dictInsert_self {α : Type} (m : List (String × α))
    (k : String) (v : α) : dictLookup (dictInsert m k v) k = some v := by
  induction m with
  | nil => simp [dictInsert, dictLookup]
  | cons hd tl ih =>
      obtain ⟨k', v'⟩ := hd
      by_cases h : k' = k <;> simp [dictInsert, dictLookup, h, ih]

theorem dictLookup_dictInsert_ne {α : Type} (m : List (String × α))
    (k u : String) (v : α) (h : u ≠ k) :
    dictLookup (dictInsert m k v) u = dictLookup m u := by
  have hne : ¬ k = u := fun h' => h h'.symm
  induction m with
  | nil => simp [dictInsert, dictLookup, hne]
  | cons hd tl ih =>
      obtain ⟨k', v'⟩ := hd
      by_cases hk : k' = k
      · subst hk
        simp [dictInsert, dictLookup, hne]
      · by_cases hu : k' = u
        · subst hu
          simp [dictInsert, dictLookup, hk]
        · simp [dictInsert, dictLookup, hk, hu, ih]

theorem dictInsert_eq_self {α : Type} (m : List (String × α)) (k : String)
    (v : α) (h : dictLookup m k = some v) : dictInsert m k v = m := by
  induction m with
  | nil => simp [dictLookup] at h
  | cons hd tl ih =>
      obtain ⟨k', v'⟩ := hd
      by_cases hk : k' = k
      · subst hk
        simp [dictLookup] at h
        simp [dictInsert, h]
      · simp [dictLookup, hk] at h
        simp [dictInsert, hk, ih h]

theorem dictKeys_cons {α : Type} (k : String) (v : α)
    (tl : List (String × α)) : dictKeys ((k, v) :: tl) = k :: dictKeys tl :=
  rfl

theorem dictKeys_dictInsert {α : Type} (m : List (String × α)) (k : String)
    (v : α) :
    dictKeys (dictInsert m k v) =
      if k ∈ dictKeys m then dictKeys m else dictKeys m ++ [k] := by
  induction m with
  | nil => simp [dictInsert, dictKeys]
  | cons hd tl ih =>
      obtain ⟨k', v'⟩ := hd
      by_cases hk : k' = k
      · subst hk
        simp [dictInsert, dictKeys]
      · have hne : ¬ k = k' := fun h => hk h.symm
        have hstep : dictInsert ((k', v') :: tl) k v =
            (k', v') :: dictInsert tl k v := by
          simp [dictInsert, hk]
        have hmem : (k ∈ k' :: dictKeys tl) ↔ k ∈ dictKeys tl := by
          simp [hne]
        rw [hstep, dictKeys_cons, dictKeys_cons, ih]
        by_cases hm : k ∈ dictKeys tl
        · rw [if_pos hm, if_pos (hmem.mpr hm)]
        · rw [if_neg hm, if_neg (fun hh => hm (hmem.mp hh))]
          simp

theorem mem_dictKeys_dictInsert {α : Type} (m : List (String × α))
    (k u : String) (v : α) :
    u ∈ dictKeys (dictInsert m k v) ↔ u ∈ dictKeys m ∨ u = k := by
  rw [dictKeys_dictInsert]
  by_cases hm : k ∈ dictKeys m
  · simp only [hm, if_true]
    constructor
    · exact fun h => Or.inl h
    · rintro (h | rfl) <;> [exact h; exact hm]
  · simp [hm]

theorem nodup_dictKeys_dictInsert {α : Type} (m : List (String × α))
    (k : String) (v : α) (h : (dictKeys m).Nodup) :
    (dictKeys (dictInsert m k v)).Nodup := by
  rw [dictKeys_dictInsert]
  by_cases hm : k ∈ dictKeys m
  · simpa [hm] using h
  · rw [if_neg hm]
    refine List.Nodup.append h (List.nodup_singleton k) ?_
    intro a ha hb
    simp only [List.mem_singleton] at hb
    exact hm (hb ▸ ha)

/-! ### Fetch-batch lemmas -/

theorem _fetch_html_snd (oracle : String → FetchOutcome) (url : String) :
    (_fetch_html oracle url).2 = url := by
  cases h : oracle url <;> simp [_fetch_html, h]

theorem fetchFrom_map_snd (env : Nat → String → FetchOutcome) (i : Nat)
    (urls : List String) : (fetchFrom env i urls).map Prod.snd = urls := by
  induction urls generalizing i with
  | nil => rfl
  | cons u rest ih => simp [fetchFrom, _fetch_html_snd, ih]

theorem fetchFrom_length (env : Nat → String → FetchOutcome) (i : Nat)
    (urls : List String) : (fetchFrom env i urls).length = urls.length := by
  induction urls generalizing i with
  | nil => rfl
  | cons u rest ih => simp [fetchFrom, ih]

theorem scrape_html_eq_foldl (parse : String → Html)
    (env : Nat → String → FetchOutcome) (urls : List String) :
    scrape_html parse env urls =
      (_fetch_all_html env urls).foldl (resultStep parse) [] :=
  rfl

theorem mem_dictKeys_resultFold (parse : String → Html)
    (ps : List (String × String)) (m : List (String × (String × String)))
    (u : String) :
    u ∈ dictKeys (ps.foldl (resultStep parse) m) ↔
      u ∈ dictKeys m ∨ u ∈ ps.map Prod.snd := by
  induction ps generalizing m with
  | nil => simp
  | cons p rest ih =>
      rw [List.foldl_cons, ih]
      rw [show resultStep parse m p = dictInsert m p.2 (_extract_text parse p.1)
        from rfl]
      rw [mem_dictKeys_dictInsert]
      simp only [List.map_cons, List.mem_cons]
      tauto

theorem nodup_dictKeys_resultFold (parse : String → Html)
    (ps : List (String × String)) (m : List (String × (String × String)))
    (h : (dictKeys m).Nodup) :
    (dictKeys (ps.foldl (resultStep parse) m)).Nodup := by
  induction ps generalizing m with
  | nil => exact h
  | cons p rest ih =>
      exact ih _ (nodup_dictKeys_dictInsert _ _ _ h)

theorem dictLookup_resultFold (parse : String → Html)
    (ps : List (String × String)) (m : List (String × (String × String)))
    (u : String) :
    dictLookup (ps.foldl (resultStep parse) m) u =
      match lastFor u ps with
      | some p => some (_extract_text parse p.1)
      | none => dictLookup m u := by
  induction ps generalizing m with
  | nil => simp [lastFor]
  | cons p rest ih =>
      rw [List.foldl_cons, ih]
      cases hres : lastFor u rest with
      | some q => simp [lastFor, hres]
      | none =>
          by_cases hp : p.2 = u
          · simp only [lastFor, hres, hp, if_pos]
            rw [show resultStep parse m p =
              dictInsert m p.2 (_extract_text parse p.1) from rfl, hp]
            exact dictLookup_dictInsert_self m u (_extract_text parse p.1)
          · simp only [lastFor, hres, hp, if_neg]
            exact dictLookup_dictInsert_ne m p.2 u _ (fun h => hp h.symm)

theorem lastFor_fetchFrom_of_not_mem (env : Nat → String → FetchOutcome)
    (u : String) (l : List String) (h : u ∉ l) :
    ∀ s, lastFor u (fetchFrom env s l) = none := by
  induction l with
  | nil => intro s; rfl
  | cons v t ih =>
      intro s
      have hv : v ≠ u := fun hh => h (hh ▸ List.mem_cons_self v t)
      have ht : u ∉ t := fun hh => h (List.mem_cons_of_mem v hh)
      simp [fetchFrom, lastFor, ih ht (s + 1), _fetch_html_snd, hv]

theorem lastFor_fetchFrom_last_occ (env : Nat → String → FetchOutcome)
    (u : String) :
    ∀ (urls : List String) (i s : Nat), urls[i]? = some u →
      u ∉ urls.drop (i + 1) →
      lastFor u (fetchFrom env s urls) =
        some (_fetch_html (env (s + i)) u) := by
  intro urls
  induction urls with
  | nil => intro i s h1 _; simp at h1
  | cons v t ih =>
      intro i s h1 h2
      cases i with
      | zero =>
          simp only [List.getElem?_cons_zero, Option.some.injEq] at h1
          subst h1
          simp only [List.drop_succ_cons, List.drop_zero] at h2
          simp only [fetchFrom, lastFor,
            lastFor_fetchFrom_of_not_mem env v t h2 (s + 1),
            _fetch_html_snd, if_pos, Nat.add_zero]
      | succ j =>
          simp only [List.getElem?_cons_succ] at h1
          simp only [List.drop_succ_cons] at h2
          have := ih j (s + 1) h1 h2
          simp only [fetchFrom, lastFor, this]
          rw [show s + 1 + j = s + (j + 1) from by omega]

/-! ### Discovery lemmas -/

theorem _fetch_links_ok (env : String → RenderOutcome) (url : String)
    (m : List (String × List String)) (links : List String)
    (h : env url = .ok links) :
    _fetch_links env url m = dictInsert m url links := by
  simp [_fetch_links, fetchLinksTr, h]

theorem _fetch_links_fail (env : String → RenderOutcome) (url : String)
    (m : List (String × List String)) (h : ∀ l, env url ≠ .ok l) :
    _fetch_links env url m = m := by
  cases he : env url with
  | ok l => exact absurd he (h l)
  | navError _ => simp [_fetch_links, fetchLinksTr, he]
  | noSession _ => simp [_fetch_links, fetchLinksTr, he]

theorem dictLookup_fetch_links_ne (env : String → RenderOutcome)
    (t u : String) (m : List (String × List String)) (h : t ≠ u) :
    dictLookup (_fetch_links env t m) u = dictLookup m u := by
  cases he : env t with
  | ok l =>
      rw [_fetch_links_ok env t m l he]
      exact dictLookup_dictInsert_ne m t u l (fun hh => h hh.symm)
  | navError _ => simp [_fetch_links, fetchLinksTr, he]
  | noSession _ => simp [_fetch_links, fetchLinksTr, he]

theorem dictLookup_runDiscovery_not_mem (env : String → RenderOutcome)
    (targets : List String) (m : List (String × List String)) (u : String)
    (h : u ∉ targets) :
    dictLookup (runDiscovery env targets m) u = dictLookup m u := by
  induction targets generalizing m with
  | nil => rfl
  | cons t rest ih =>
      have ht : t ≠ u := fun hh => h (hh ▸ List.mem_cons_self t rest)
      have hr : u ∉ rest := fun hh => h (List.mem_cons_of_mem t hh)
      calc dictLookup (runDiscovery env rest (_fetch_links env t m)) u
          = dictLookup (_fetch_links env t m) u := ih _ hr
        _ = dictLookup m u := dictLookup_fetch_links_ne env t u m ht

theorem dictLookup_runDiscovery_of_ok (env : String → RenderOutcome)
    (targets : List String) (m : List (String × List String)) (u : String)
    (links : List String) (hmem : u ∈ targets) (h : env u = .ok links) :
    dictLookup (runDiscovery env targets m) u = some links := by
  induction targets generalizing m with
  | nil => cases hmem
  | cons t rest ih =>
      by_cases hr : u ∈ rest
      · exact ih _ hr
      · have ht : t = u := by
          rcases List.mem_cons.mp hmem with h' | h'
          · exact h'.symm
          · exact absurd h' hr
        subst ht
        rw [show runDiscovery env (t :: rest) m =
          runDiscovery env rest (_fetch_links env t m) from rfl]
        rw [dictLookup_runDiscovery_not_mem env rest _ t hr]
        rw [_fetch_links_ok env t m links h]
        exact dictLookup_dictInsert_self m t links

theorem dictLookup_runDiscovery_of_fail (env : String → RenderOutcome)
    (targets : List String) (m : List (String × List String)) (u : String)
    (h : ∀ l, env u ≠ .ok l) :
    dictLookup (runDiscovery env targets m) u = dictLookup m u := by
  induction targets generalizing m with
  | nil => rfl
  | cons t rest ih =>
      by_cases ht : t = u
      · subst ht
        rw [show runDiscovery env (t :: rest) m =
          runDiscovery env rest (_fetch_links env t m) from rfl]
        rw [_fetch_links_fail env t m h]
        exact ih m
      · calc dictLookup (runDiscovery env rest (_fetch_links env t m)) u
            = dictLookup (_fetch_links env t m) u := ih _
          _ = dictLookup m u := dictLookup_fetch_links_ne env t u m ht

theorem mem_dictKeys_fetch_links (env : String → RenderOutcome)
    (t : String) (m : List (String × List String)) (k : String)
    (h : k ∈ dictKeys (_fetch_links env t m)) :
    k ∈ dictKeys m ∨ k = t := by
  cases he : env t with
  | ok l =>
      rw [_fetch_links_ok env t m l he] at h
      exact (mem_dictKeys_dictInsert m t k l).mp h
  | navError _ =>
      simp only [_fetch_links, fetchLinksTr, he] at h
      exact Or.inl h
  | noSession _ =>
      simp only [_fetch_links, fetchLinksTr, he] at h
      exact Or.inl h

theorem mem_dictKeys_runDiscovery (env : String → RenderOutcome)
    (targets : List String) (m : List (String × List String)) (k : String)
    (h : k ∈ dictKeys (runDiscovery env targets m)) :
    k ∈ dictKeys m ∨ k ∈ targets := by
  induction targets generalizing m with
  | nil => exact Or.inl h
  | cons t rest ih =>
      rcases ih (_fetch_links env t m) h with h' | h'
      · rcases mem_dictKeys_fetch_links env t m k h' with h'' | h''
        · exact Or.inl h''
        · exact Or.inr (h'' ▸ List.mem_cons_self t rest)
      · exact Or.inr (List.mem_cons_of_mem t h')

theorem runDiscovery_fixed (env : String → RenderOutcome)
    (targets : List String) (m : List (String × List String))
    (h : ∀ u ∈ targets, ∀ links, env u = .ok links →
      dictLookup m u = some links) :
    runDiscovery env targets m = m := by
  induction targets with
  | nil => rfl
  | cons t rest ih =>
      have hstep : _fetch_links env t m = m := by
        cases he : env t with
        | ok l =>
            rw [_fetch_links_ok env t m l he]
            exact dictInsert_eq_self m t l
              (h t (List.mem_cons_self t rest) l he)
        | navError _ => simp [_fetch_links, fetchLinksTr, he]
        | noSession _ => simp [_fetch_links, fetchLinksTr, he]
      rw [show runDiscovery env (t :: rest) m =
        runDiscovery env rest (_fetch_links env t m) from rfl, hstep]
      exact ih (fun u hu => h u (List.mem_cons_of_mem t hu))

/-! ### Engine-state lemmas -/

theorem applyOp_target_urls (s : Scraper) (op : Op) :
    (applyOp s op).target_urls = s.target_urls := by
  cases op <;> rfl

theorem applyOps_target_urls (s : Scraper) (ops : List Op) :
    (applyOps s ops).target_urls = s.target_urls := by
  induction ops generalizing s with
  | nil => rfl
  | cons op rest ih =>
      calc (applyOps (applyOp s op) rest).target_urls
          = (applyOp s op).target_urls := ih _
        _ = s.target_urls := applyOp_target_urls s op

theorem applyOps_keys_subset (urls : List String) (ops : List Op)
    (s : Scraper) (htgt : s.target_urls = urls)
    (hkeys : dictKeys s.collected_links ⊆ urls) :
    dictKeys (applyOps s ops).collected_links ⊆ urls := by
  induction ops generalizing s with
  | nil => exact hkeys
  | cons op rest ih =>
      refine ih (applyOp s op) ?_ ?_
      · rw [applyOp_target_urls, htgt]
      · cases op with
        | discover env =>
            intro k hk
            rcases mem_dictKeys_runDiscovery env s.target_urls
              s.collected_links k hk with h' | h'
            · exact hkeys h'
            · exact htgt ▸ h'
        | scrape parse env us => exact hkeys

/-! ### String lemmas for the error-text contract -/

theorem dropWhile_append_cases {α : Type} (p : α → Bool) (a b : List α) :
    (a ++ b).dropWhile p =
      if (a.dropWhile p).isEmpty then b.dropWhile p
      else a.dropWhile p ++ b := by
  induction a with
  | nil => simp
  | cons x xs ih =>
      by_cases hp : p x
      · simpa [List.dropWhile_cons, hp] using ih
      · simp [List.dropWhile_cons, hp]

theorem pyStripList_err (m : String) :
    pyStripList ("Error: " ++ m).data = "Error:".data ∨
    ∃ t : List Char,
      pyStripList ("Error: " ++ m).data = "Error: ".data ++ t := by
  have hd : ("Error: " ++ m).data = "Error: ".data ++ m.data :=
    String.data_append _ m
  have h1 : ("Error: ".data ++ m.data).dropWhile pyIsSpace =
      "Error: ".data ++ m.data := by
    rw [show "Error: ".data ++ m.data = 'E' :: ("rror: ".data ++ m.data)
      from rfl]
    rw [List.dropWhile_cons_of_neg (by decide)]
  have h2 : ("Error: ".data ++ m.data).reverse =
      m.data.reverse ++ [' ', ':', 'r', 'o', 'r', 'r', 'E'] := by
    rw [List.reverse_append]
    rfl
  unfold pyStripList
  rw [hd, h1, h2, dropWhile_append_cases]
  by_cases he : (m.data.reverse.dropWhile pyIsSpace).isEmpty
  · left
    rw [if_pos he]
    rfl
  · right
    refine ⟨(m.data.reverse.dropWhile pyIsSpace).reverse, ?_⟩
    rw [if_neg he, List.reverse_append]
    rfl

theorem errPrefix_replace_strip (m : String) :
    "Error:".data <+: (replaceNbsp (pyStrip ("Error: " ++ m))).data := by
  have hrep : ∀ s : String, (replaceNbsp s).data =
      s.data.map (fun c => if c = Char.ofNat 160 then ' ' else c) :=
    fun _ => rfl
  have hstrip : ∀ s : String, (pyStrip s).data = pyStripList s.data :=
    fun _ => rfl
  rw [hrep, hstrip]
  rcases pyStripList_err m with h | ⟨t, h⟩
  · rw [h]
    exact ⟨[], by rfl⟩
  · rw [h, List.map_append]
    refine ⟨' ' :: t.map (fun c => if c = Char.ofNat 160 then ' ' else c), ?_⟩
    rfl

theorem extract_text_plain (s : String) :
    _extract_text lxmlParsePlain s =
      (replaceNbsp (pyStrip s), "No Title Found") := by
  show (String.intercalate " " [replaceNbsp (pyStrip (s ++ ""))],
    "No Title Found") = _
  rw [String.append_empty]
  rfl

/-! ### Claim theorems -/

/-- C1: for every input URL list, `scrape_html` (run synchronously by
`scrape_and_get_html`) returns a mapping whose keys contain every requested
URL exactly once — one entry per unique requested URL, no requested URL
absent — and the empty input list yields the empty mapping. -/
theorem scrape_html_complete_unique (parse : String → Html)
    (env : Nat → String → FetchOutcome) :
    scrape_html parse env [] = [] ∧
    ∀ urls u, (dictKeys (scrape_html parse env urls)).count u =
      if u ∈ urls then 1 else 0 := by
  refine ⟨rfl, fun urls u => ?_⟩
  have hmem : u ∈ dictKeys (scrape_html parse env urls) ↔ u ∈ urls := by
    rw [scrape_html_eq_foldl, mem_dictKeys_resultFold]
    simp [dictKeys, _fetch_all_html, fetchFrom_map_snd]
  have hnd : (dictKeys (scrape_html parse env urls)).Nodup := by
    rw [scrape_html_eq_foldl]
    exact nodup_dictKeys_resultFold parse _ [] (by simp [dictKeys])
  by_cases hu : u ∈ urls
  · rw [if_pos hu]
    exact List.count_eq_one_of_mem hnd (hmem.mpr hu)
  · rw [if_neg hu]
    exact List.count_eq_zero_of_not_mem (fun hh => hu (hmem.mp hh))

/-- C2: each recognized fetch failure (timeout, invalid URL, server
disconnect, connection failure, decode failure) makes `_fetch_html` return
`("Error: <description>", url)` instead of raising; the batch still
produces one result per requested URL; and extraction applied to the error
text yields a `(plainText, title)` pair whose text keeps the literal
`Error:` prefix. -/
theorem fetch_html_error_isolated (oracle : String → FetchOutcome)
    (url : String) (h : (oracle url).isFailure = true) :
    _fetch_html oracle url = ("Error: " ++ (oracle url).msg, url) ∧
    (∀ (env : Nat → String → FetchOutcome) (urls : List String),
      (_fetch_all_html env urls).length = urls.length) ∧
    _extract_text lxmlParsePlain ("Error: " ++ (oracle url).msg) =
      (replaceNbsp (pyStrip ("Error: " ++ (oracle url).msg)),
        "No Title Found") ∧
    "Error:".data <+:
      (_extract_text lxmlParsePlain ("Error: " ++ (oracle url).msg)).1.data := by
  refine ⟨?_, fun env urls => fetchFrom_length env 0 urls,
    extract_text_plain _, ?_⟩
  · cases he : oracle url with
    | success b => rw [he] at h; exact absurd h (by simp [FetchOutcome.isFailure])
    | timeoutError m => simp [_fetch_html, he, FetchOutcome.msg]
    | invalidURL m => simp [_fetch_html, he, FetchOutcome.msg]
    | serverDisconnected m => simp [_fetch_html, he, FetchOutcome.msg]
    | clientConnectorError m => simp [_fetch_html, he, FetchOutcome.msg]
    | unicodeDecodeError m => simp [_fetch_html, he, FetchOutcome.msg]
  · rw [show (_extract_text lxmlParsePlain
        ("Error: " ++ (oracle url).msg)).1 =
        replaceNbsp (pyStrip ("Error: " ++ (oracle url).msg)) from by
      rw [extract_text_plain]]
    exact errPrefix_replace_strip _

/-- Witness for C2 at the spec's end-to-end example: a timed-out URL. -/
theorem fetch_html_error_isolated_witness :
    _fetch_html (fun _ => FetchOutcome.timeoutError "timeout")
        "https://b.test/bad" = ("Error: timeout", "https://b.test/bad") ∧
    _extract_text lxmlParsePlain "Error: timeout" =
      ("Error: timeout", "No Title Found") :=
  have h := fetch_html_error_isolated
    (fun _ => FetchOutcome.timeoutError "timeout") "https://b.test/bad" rfl
  ⟨h.1, (h.2.2.1).trans (by rfl)⟩

/-- C3: `_extract_text` removes the non-content nodes (script, style,
template, raw markup declarations) before collecting paragraph text; the
plain text is the paragraph texts, each stripped and NBSP-normalized,
joined by single spaces; `<script>x</script><p>Hello</p>` yields `"Hello"`
and a paragraph-free document yields the empty string. -/
theorem extract_text_pipeline :
    (∀ soup, (extractFromSoup soup).1 =
      String.intercalate " "
        ((findAll "p" (removeTags removeNames soup)).map
          (fun p => replaceNbsp (pyStrip (getText p))))) ∧
    (∀ soup, findAll "p" (removeTags removeNames soup) = [] →
      (extractFromSoup soup).1 = "") ∧
    (extractFromSoup scriptHelloDoc).1 = "Hello" := by
  refine ⟨fun soup => rfl, fun soup h => ?_, rfl⟩
  have h1 : (extractFromSoup soup).1 =
      String.intercalate " "
        ((findAll "p" (removeTags removeNames soup)).map
          (fun p => replaceNbsp (pyStrip (getText p)))) := rfl
  rw [h1, h]
  rfl

/-- Witness for C3: a document with zero paragraph elements. -/
theorem extract_text_pipeline_witness :
    (extractFromSoup (Html.elem "[document]" [])).1 = "" :=
  extract_text_pipeline.2.1 (Html.elem "[document]" []) rfl

/-- C4: the title component of `_extract_text` is the text of the first
title element when one exists and the sentinel `"No Title Found"`
otherwise; `<title>Example</title>` yields `"Example"`. -/
theorem extract_text_title :
    (∀ soup, (findAll "title" soup).head? = none →
      (extractFromSoup soup).2 = "No Title Found") ∧
    (∀ soup t, (findAll "title" soup).head? = some t →
      (extractFromSoup soup).2 = getText t) ∧
    (extractFromSoup titleExampleDoc).2 = "Example" := by
  refine ⟨fun soup h => ?_, fun soup t h => ?_, rfl⟩
  · have h1 : (extractFromSoup soup).2 =
        match (findAll "title" soup).head? with
        | some t => getText t
        | none => "No Title Found" := rfl
    rw [h1, h]
  · have h1 : (extractFromSoup soup).2 =
        match (findAll "title" soup).head? with
        | some t => getText t
        | none => "No Title Found" := rfl
    rw [h1, h]

/-- Witness for C4: a document with no title element. -/
theorem extract_text_title_witness :
    (extractFromSoup (lxmlParsePlain "hi")).2 = "No Title Found" :=
  extract_text_title.1 (lxmlParsePlain "hi") rfl

/-- C5: a rendering/navigation error for one URL is caught inside that
URL's `_fetch_links` task and leaves its `collected_links` entry exactly as
before (absent when starting empty), while every URL whose rendering
succeeds still gets its links recorded — one failure never aborts discovery
for the other URLs, and the phase (a fold over the whole target list,
matching `gather` awaiting every task) processes every URL. -/
theorem discovery_error_isolation (env : String → RenderOutcome)
    (targets : List String) (m : List (String × List String)) (u : String) :
    (∀ links, u ∈ targets → env u = .ok links →
      dictLookup (runDiscovery env targets m) u = some links) ∧
    ((∀ l, env u ≠ .ok l) →
      dictLookup (runDiscovery env targets m) u = dictLookup m u) :=
  ⟨fun links hmem h =>
      dictLookup_runDiscovery_of_ok env targets m u links hmem h,
   fun h => dictLookup_runDiscovery_of_fail env targets m u h⟩

/-- Witness for C5: one good and one failing URL in the same batch. -/
theorem discovery_error_isolation_witness :
    dictLookup (runDiscovery demoRenderEnv
      ["https://a.test/news", "https://b.test/bad"] [])
      "https://a.test/news" = some ["/x"] ∧
    dictLookup (runDiscovery demoRenderEnv
      ["https://a.test/news", "https://b.test/bad"] [])
      "https://b.test/bad" = none :=
  ⟨(discovery_error_isolation demoRenderEnv
      ["https://a.test/news", "https://b.test/bad"] []
      "https://a.test/news").1 ["/x"] (by decide) rfl,
   ((discovery_error_isolation demoRenderEnv
      ["https://a.test/news", "https://b.test/bad"] []
      "https://b.test/bad").2 (fun l => by simp [demoRenderEnv])).trans rfl⟩

/-- C6: every `_fetch_links` call balances browser acquisition and release;
at most one session is acquired per call, and whenever one was acquired it
is released on that exit path — success, caught error, or failed
construction alike. -/
theorem fetch_links_resource_discipline (env : String → RenderOutcome)
    (url : String) (m : List (String × List String)) :
    ((fetchLinksTr env url m).2.count Event.acquired =
      (fetchLinksTr env url m).2.count Event.released) ∧
    (fetchLinksTr env url m).2.count Event.acquired ≤ 1 ∧
    (Event.acquired ∈ (fetchLinksTr env url m).2 →
      Event.released ∈ (fetchLinksTr env url m).2) := by
  cases he : env url with
  | ok l =>
      simp only [fetchLinksTr, he]
      exact ⟨by decide, by decide, by decide⟩
  | navError msg =>
      simp only [fetchLinksTr, he]
      exact ⟨by decide, by decide, by decide⟩
  | noSession msg =>
      simp only [fetchLinksTr, he]
      exact ⟨by decide, by decide, by decide⟩

/-- Witness for C6: the caught-error branch still releases the browser. -/
theorem fetch_links_resource_discipline_witness :
    Event.released ∈ (fetchLinksTr demoRenderEnv "https://b.test/bad" []).2 :=
  (fetch_links_resource_discipline demoRenderEnv "https://b.test/bad" []).2.2
    (by decide)

/-- C7: `collected_links` is empty at construction, and after any sequence
of engine operations its key set is a subset of the construction-time
`target_urls` — no engine operation inserts a key outside `target_urls`. -/
theorem collected_links_subset_invariant (urls : List String) :
    (initScraper urls).collected_links = [] ∧
    ∀ ops : List Op,
      dictKeys (applyOps (initScraper urls) ops).collected_links ⊆ urls :=
  ⟨rfl, fun ops =>
    applyOps_keys_subset urls ops (initScraper urls) rfl
      (by simp [initScraper, dictKeys])⟩

/-- C8: running the discovery phase twice with the same rendering behaviour
is idempotent on the engine state: each site's entry is replaced by
assignment, so the second run recreates exactly the state of the first —
no duplicate accumulation. -/
theorem discovery_idempotent (env : String → RenderOutcome)
    (urls : List String) :
    applyOp (applyOp (initScraper urls) (Op.discover env)) (Op.discover env) =
      applyOp (initScraper urls) (Op.discover env) := by
  show Scraper.mk urls (runDiscovery env urls (runDiscovery env urls [])) =
    Scraper.mk urls (runDiscovery env urls [])
  congr 1
  apply runDiscovery_fixed
  intro u hu links hl
  exact dictLookup_runDiscovery_of_ok env urls [] u links hu hl

/-- C9: the fetch-and-extract entry point leaves the engine state
untouched, and no engine operation ever mutates `target_urls`. -/
theorem scrape_frame :
    (∀ (s : Scraper) (parse : String → Html)
      (env : Nat → String → FetchOutcome) (urls : List String),
      (scrape_and_get_html s parse env urls).2 = s) ∧
    (∀ (s : Scraper) (ops : List Op),
      (applyOps s ops).target_urls = s.target_urls) :=
  ⟨fun _ _ _ _ => rfl, fun s ops => applyOps_target_urls s ops⟩

/-- C10: when the input list repeats a URL, the single entry for it in the
`scrape_html` result holds the extraction of the fetch made for its last
occurrence: `gather` keeps the per-request results in input order, and the
dict comprehension lets later pairs overwrite earlier ones. -/
theorem scrape_last_occurrence_wins (parse : String → Html)
    (env : Nat → String → FetchOutcome) (urls : List String) (u : String)
    (i : Nat) (h1 : urls[i]? = some u) (h2 : u ∉ urls.drop (i + 1)) :
    dictLookup (scrape_html parse env urls) u =
      some (_extract_text parse (_fetch_html (env i) u).1) := by
  rw [scrape_html_eq_foldl, dictLookup_resultFold]
  rw [show _fetch_all_html env urls = fetchFrom env 0 urls from rfl]
  rw [lastFor_fetchFrom_last_occ env u urls i 0 h1 h2]
  rw [Nat.zero_add]

/-- Witness for C10: `"a"` occurs at positions 0 and 2; the entry comes
from request 2. -/
theorem scrape_last_occurrence_wins_witness :
    dictLookup (scrape_html lxmlParsePlain demoFetchEnv ["a", "b", "a"]) "a" =
      some (_extract_text lxmlParsePlain
        (_fetch_html (demoFetchEnv 2) "a").1) ∧
    _extract_text lxmlParsePlain (_fetch_html (demoFetchEnv 2) "a").1 =
      ("last", "No Title Found") :=
  ⟨scrape_last_occurrence_wins lxmlParsePlain demoFetchEnv ["a", "b", "a"]
    "a" 2 (by decide) (by decide), rfl⟩
